import Mathlib

/-!
Verification of the coffee-sales forecasting engine described by the
repository's specification.  The repository's own source (`src/app.py`)
contains the data pipeline: it filters the raw sales rows by ingredient,
aggregates them to a monthly series with `resample("ME").sum()`, fits a
forecasting model, predicts over history plus a horizon of future months,
and derives KPI values (total, average, next-month forecast).  The
statistical engine itself (trend, seasonality, uncertainty, fit/predict
contracts) is supplied by a wrapped third-party library and is therefore
modelled here from the specification; the aggregation, KPI arithmetic,
next-month lookup and ingredient filtering are translated directly from
the source.
-/

/-- Calendar date, reduced to the fields the pipeline inspects: the
calendar month (as a month index, so consecutive integers are consecutive
calendar months, each identified with its month-end) and the day within
the month.  Aggregation groups by the month field only. -/
structure Date where
  month : ℤ
  day : ℕ
deriving DecidableEq

/-- Raw observation: a timestamp and a non-negative sales value
(the `ds` / `y` columns of the source dataframe). -/
structure Obs where
  ds : Date
  value : ℚ
deriving DecidableEq

/-- One point of the aggregated monthly series: a month (identified with
its month-end period) and the summed value for that month. -/
structure SeriesPoint where
  month : ℤ
  value : ℚ
deriving DecidableEq

/-- A raw row of the sales table: timestamp, ingredient (coffee type)
and value, as in the source CSV after the unused column is dropped. -/
structure SalesRow where
  ds : Date
  ingredient : String
  y : ℚ
deriving DecidableEq

/-- Smallest month index occurring in the observation list (0 for the
empty list).  This is the first bin of the source's
`resample("ME")` call, which spans from the earliest to the latest
observed month. -/
def Aggregator.lo : List Obs → ℤ
  | [] => 0
  | o :: rest => (rest.map (fun x => x.ds.month)).foldl min o.ds.month

/-- Largest month index occurring in the observation list (0 for the
empty list). -/
def Aggregator.hi : List Obs → ℤ
  | [] => 0
  | o :: rest => (rest.map (fun x => x.ds.month)).foldl max o.ds.month

/-- Number of monthly bins produced by resampling: every calendar month
from the earliest to the latest observed month, inclusive. -/
def Aggregator.span (obs : List Obs) : ℕ :=
  (Aggregator.hi obs - Aggregator.lo obs + 1).toNat

/-- Sum of the values of all observations falling in month `m`; the
month's aggregated value (the `.sum()` of the source's resample). -/
def Aggregator.monthTotal (obs : List Obs) (m : ℤ) : ℚ :=
  ((obs.filter (fun o => o.ds.month = m)).map (fun o => o.value)).sum

/-- Monthly aggregation, translated from the source's
`df_coffee.set_index("ds").resample("ME").sum()`: one bin per calendar
month from the earliest to the latest observed month (so months with no
observations appear with value 0, the sum over an empty bin), each bin
holding the sum of the values observed in that month. -/
def Aggregator.aggregate : List Obs → List SeriesPoint
  | [] => []
  | o :: rest =>
    (List.range (Aggregator.span (o :: rest))).map (fun (i : ℕ) =>
      { month := Aggregator.lo (o :: rest) + i
        value := Aggregator.monthTotal (o :: rest) (Aggregator.lo (o :: rest) + i) })

/-- Errors of the forecasting engine, from the specification's error
taxonomy. -/
inductive ForecastError where
  | insufficientData
  | invalidHorizon
  | notFit
deriving DecidableEq

/-- One row of the forecast table: the period (month-end), the point
estimate and the lower/upper interval bounds (the `ds`, `yhat`,
`yhat_lower`, `yhat_upper` columns of the forecast dataframe). -/
structure ForecastRow where
  period : ℤ
  point : ℝ
  lower : ℝ
  upper : ℝ

/-- Piecewise-linear trend: a base intercept and slope plus slope deltas
at changepoints, per the specification's TrendModel. -/
structure TrendModel where
  intercept : ℝ
  slope : ℝ
  changepoints : List (ℤ × ℝ)

/-- Modelled from the spec: trend evaluation is the continuous
piecewise-linear function `intercept + slope * t` plus, for every
changepoint at or before `t`, its slope delta applied from the
changepoint on; past the last changepoint this extrapolates linearly. -/
noncomputable def TrendModel.evaluate (tm : TrendModel) (t : ℤ) : ℝ :=
  tm.intercept + tm.slope * t +
    ((tm.changepoints.filter (fun cp => cp.1 ≤ t)).map
      (fun cp => cp.2 * ((t : ℝ) - (cp.1 : ℝ)))).sum

/-- Yearly-seasonal model: one (cosine, sine) coefficient pair per
harmonic order, per the specification's SeasonalModel. -/
structure SeasonalModel where
  coeffs : List (ℝ × ℝ)

/-- Yearly phase of a month index: position within the 12-month cycle
scaled to `[0, 2π)`.  Modelled from the spec's
`phase(t) = (day_of_year(t) / 365.25) * 2π`, specialised to the monthly
grid the engine actually receives. -/
noncomputable def yearPhase (t : ℤ) : ℝ :=
  2 * Real.pi * (((t % 12 : ℤ) : ℝ) / 12)

/-- Modelled from the spec: seasonal evaluation is the Fourier sum
`Σ a_k cos(k·phase) + b_k sin(k·phase)`, a pure periodic function of the
phase, defined for any timestamp including future ones. -/
noncomputable def SeasonalModel.evaluate (sm : SeasonalModel) (t : ℤ) : ℝ :=
  (((List.range sm.coeffs.length).zip sm.coeffs).map
    (fun kc => kc.2.1 * Real.cos ((kc.1 + 1 : ℕ) * yearPhase t) +
               kc.2.2 * Real.sin ((kc.1 + 1 : ℕ) * yearPhase t))).sum

/-- Harmonic order of the seasonal fit (the specification's fixed
configuration constant, e.g. order 10). -/
def fourierOrder : ℕ := 10

/-- Growth constant `k > 0` of the uncertainty interval (the
specification fixes some positive constant; its exact value is a
configuration choice). -/
noncomputable def growthConstant : ℝ := 1

/-- Floor substituted for a zero residual scale so intervals are never
zero-width (specification §4.4). -/
noncomputable def residualFloor : ℝ := 1 / 1000

/-- Configured maximum forecast horizon in months; the source bounds the
horizon to 1–24 via its slider. -/
def maxHorizon : ℕ := 24

/-- Modelled from the spec: the L1-regularised changepoint fit of §4.2
is an argmin the spec leaves to a numerical solver; it is modelled here
by its explicitly specified fallback, the single global linear
least-squares fit with zero changepoints (§4.2 edge case).  No claim
checked below depends on the fitted coefficient values. -/
noncomputable def ChangepointTrend.fit (s : List SeriesPoint) : TrendModel :=
  let n : ℝ := s.length
  let sx : ℝ := (s.map (fun p => (p.month : ℝ))).sum
  let sy : ℝ := (s.map (fun p => (p.value : ℝ))).sum
  let sxx : ℝ := (s.map (fun p => (p.month : ℝ) ^ 2)).sum
  let sxy : ℝ := (s.map (fun p => (p.month : ℝ) * (p.value : ℝ))).sum
  let slope : ℝ := (n * sxy - sx * sy) / (n * sxx - sx ^ 2)
  { intercept := (sy - slope * sx) / n, slope := slope, changepoints := [] }

/-- Modelled from the spec: the ordinary-least-squares projection of the
detrended residual onto the fixed-order Fourier basis (§4.3), written in
the closed form it takes on a uniformly phased monthly grid. -/
noncomputable def FourierSeasonality.fit (s : List SeriesPoint) (tm : TrendModel) :
    SeasonalModel :=
  let n : ℝ := s.length
  { coeffs := (List.range fourierOrder).map (fun k =>
      ((2 / n) * (s.map (fun p =>
          ((p.value : ℝ) - tm.evaluate p.month) *
            Real.cos ((k + 1 : ℕ) * yearPhase p.month))).sum,
       (2 / n) * (s.map (fun p =>
          ((p.value : ℝ) - tm.evaluate p.month) *
            Real.sin ((k + 1 : ℕ) * yearPhase p.month))).sum)) }

/-- Residuals of the fitted model over the history: actual minus trend
minus seasonality for each point (specification §4.4). -/
noncomputable def UncertaintyEstimator.residuals (s : List SeriesPoint)
    (tm : TrendModel) (sm : SeasonalModel) : List ℝ :=
  s.map (fun p => (p.value : ℝ) - tm.evaluate p.month - sm.evaluate p.month)

/-- Standard deviation of the residuals across history. -/
noncomputable def UncertaintyEstimator.sd (s : List SeriesPoint)
    (tm : TrendModel) (sm : SeasonalModel) : ℝ :=
  let rs := UncertaintyEstimator.residuals s tm sm
  let mean : ℝ := rs.sum / s.length
  Real.sqrt ((rs.map (fun r => (r - mean) ^ 2)).sum / s.length)

/-- Modelled from the spec: the residual scale is the standard deviation
of the residuals, with a small positive floor substituted when that
deviation is exactly zero (degenerate, perfectly fit history). -/
noncomputable def UncertaintyEstimator.fit (s : List SeriesPoint)
    (tm : TrendModel) (sm : SeasonalModel) : ℝ :=
  if UncertaintyEstimator.sd s tm sm = 0 then residualFloor
  else UncertaintyEstimator.sd s tm sm

/-- Modelled from the spec: interval half-widths below and above the
point estimate, each `residual_scale * sqrt(1 + k * horizon_distance)`,
so uncertainty widens with distance into the future. -/
noncomputable def UncertaintyEstimator.interval (scale : ℝ) (d : ℕ) : ℝ × ℝ :=
  (scale * Real.sqrt (1 + growthConstant * d),
   scale * Real.sqrt (1 + growthConstant * d))

/-- Fitted forecast model: one trend model, one seasonal model, the
residual-scale estimate, and the historical periods the model was fit
on (with the last observed period cached). -/
structure ForecastModel where
  trend : TrendModel
  seasonal : SeasonalModel
  residualScale : ℝ
  historyPeriods : List ℤ
  lastPeriod : ℤ

/-- Model assembled by a successful fit: the three component fits run
sequentially, plus the historical month grid of the input series. -/
noncomputable def Forecaster.mkModel (s : List SeriesPoint) : ForecastModel :=
  let tm := ChangepointTrend.fit s
  let sm := FourierSeasonality.fit s tm
  { trend := tm
    seasonal := sm
    residualScale := UncertaintyEstimator.fit s tm sm
    historyPeriods := s.map (fun p => p.month)
    lastPeriod := (s.map (fun p => p.month)).getLastD 0 }

/-- Modelled from the spec: `fit` requires at least 2 aggregated points
(a trend cannot be fit from a single point) and otherwise runs the
component fits and returns the assembled model. -/
noncomputable def Forecaster.fit (s : List SeriesPoint) :
    Except ForecastError ForecastModel :=
  if s.length < 2 then Except.error ForecastError.insufficientData
  else Except.ok (Forecaster.mkModel s)

/-- One forecast row at period `p` with horizon distance `d` (0 for
historical periods): point estimate is trend + seasonality, and the
bounds subtract/add the uncertainty interval widths for distance `d`. -/
noncomputable def ForecastModel.row (m : ForecastModel) (p : ℤ) (d : ℕ) : ForecastRow :=
  { period := p
    point := m.trend.evaluate p + m.seasonal.evaluate p
    lower := m.trend.evaluate p + m.seasonal.evaluate p -
      (UncertaintyEstimator.interval m.residualScale d).1
    upper := m.trend.evaluate p + m.seasonal.evaluate p +
      (UncertaintyEstimator.interval m.residualScale d).2 }

/-- Distance in months ahead of the last observed period of the row at
position `i` of the forecast table, when the history has `n` rows:
0 for historical rows, then 1, 2, … for the future rows. -/
def monthsAhead (n i : ℕ) : ℕ :=
  if i < n then 0 else i - n + 1

/-- Forecast table: one row per historical period at distance 0,
followed by one row per future month-end period after the last observed
period, the `j`-th future row at distance `j`. -/
noncomputable def ForecastModel.predictRows (m : ForecastModel) (h : ℕ) :
    List ForecastRow :=
  m.historyPeriods.map (fun p => m.row p 0) ++
    (List.range h).map (fun (i : ℕ) => m.row (m.lastPeriod + (i : ℤ) + 1) (i + 1))

/-- Modelled from the spec: `predict` rejects a horizon below 1 or above
the configured maximum with `InvalidHorizonError`, and otherwise returns
the ordered forecast table over history plus the horizon. -/
noncomputable def Forecaster.predict (m : ForecastModel) (h : ℕ) :
    Except ForecastError (List ForecastRow) :=
  if h < 1 then Except.error ForecastError.invalidHorizon
  else if maxHorizon < h then Except.error ForecastError.invalidHorizon
  else Except.ok (m.predictRows h)

/-- Total historical sales, translated from the source's
`df_coffee["y"].sum()`. -/
def KPISummarizer.total (s : List SeriesPoint) : ℚ :=
  (s.map (fun p => p.value)).sum

/-- Average monthly sales, translated from the source's
`df_coffee["y"].mean()`: the sum of the values divided by their count. -/
def KPISummarizer.average (s : List SeriesPoint) : ℚ :=
  (s.map (fun p => p.value)).sum / s.length

/-- Next-period forecast lookup, translated from the source: the month
after the last observed period is `last + 1`; the first forecast row
with that period supplies the value, and a missing row yields the
"N/A" sentinel (`none`), not an exception. -/
def KPISummarizer.nextPeriodForecast (rows : List ForecastRow) (lastPeriod : ℤ) :
    Option ℝ :=
  (rows.find? (fun r => r.period = lastPeriod + 1)).map (fun r => r.point)

/-- Rows of the sales table for one ingredient, translated from the
source's `df[df["ingredient"] == coffee]` (order preserved). -/
def filterIngredient (data : List SalesRow) (coffee : String) : List SalesRow :=
  data.filter (fun r => r.ingredient = coffee)

/-- Observation view of a sales row (its timestamp and value). -/
def SalesRow.toObs (r : SalesRow) : Obs :=
  { ds := r.ds, value := r.y }

/-- Forecast pipeline for one coffee type, translated from the source's
`run_forecast`: filter the data to the selected ingredient, aggregate it
monthly, fit the model and predict over history plus the horizon;
returns the forecast result together with the aggregated series. -/
noncomputable def run_forecast (data : List SalesRow) (coffee : String)
    (forecast_period : ℕ) :
    Except ForecastError (List ForecastRow) × List SeriesPoint :=
  let df_coffee := Aggregator.aggregate ((filterIngredient data coffee).map SalesRow.toObs)
  ((Forecaster.fit df_coffee).bind (fun m => Forecaster.predict m forecast_period),
   df_coffee)

/-- Two-month example observation list (months 0 and 1). -/
def exObs2 : List Obs :=
  [{ ds := { month := 0, day := 15 }, value := 5 },
   { ds := { month := 1, day := 10 }, value := 7 }]

/-- Single-month example observation list. -/
def exObs1 : List Obs :=
  [{ ds := { month := 4, day := 2 }, value := 9 }]

/-- Example for the aggregation scenario: two observations in month 0
with values 5 and 3, one observation in month 1 with value 7. -/
def exObsC6 : List Obs :=
  [{ ds := { month := 0, day := 5 }, value := 5 },
   { ds := { month := 0, day := 20 }, value := 3 },
   { ds := { month := 1, day := 10 }, value := 7 }]

/-- Example with a gap: observations in months 0 and 2, none in month 1. -/
def exObsC7 : List Obs :=
  [{ ds := { month := 0, day := 1 }, value := 4 },
   { ds := { month := 2, day := 1 }, value := 6 }]

/-- Example fitted model over the two-month example series. -/
noncomputable def exModel : ForecastModel :=
  Forecaster.mkModel (Aggregator.aggregate exObs2)

/-- Example forecast model with trivial components, for horizon checks. -/
noncomputable def exModel0 : ForecastModel :=
  { trend := { intercept := 0, slope := 0, changepoints := [] }
    seasonal := { coeffs := [] }
    residualScale := 1
    historyPeriods := [0, 1]
    lastPeriod := 1 }

/-- Example forecast rows for the next-period lookup. -/
noncomputable def exRows9 : List ForecastRow :=
  [{ period := 3, point := 2, lower := 1, upper := 5 },
   { period := 5, point := 4, lower := 2, upper := 6 }]

/-- Example sales tables for the noninterference check: the second drops
the rows of the other ingredient. -/
def exSales1 : List SalesRow :=
  [{ ds := { month := 0, day := 3 }, ingredient := "Colombia", y := 5 },
   { ds := { month := 0, day := 9 }, ingredient := "Robusta", y := 11 },
   { ds := { month := 1, day := 4 }, ingredient := "Colombia", y := 7 },
   { ds := { month := 2, day := 6 }, ingredient := "Robusta", y := 13 }]

/-- Companion table agreeing with `exSales1` on the Colombia rows. -/
def exSales2 : List SalesRow :=
  [{ ds := { month := 0, day := 3 }, ingredient := "Colombia", y := 5 },
   { ds := { month := 1, day := 4 }, ingredient := "Colombia", y := 7 }]

/-- Folding `min` over a list never exceeds the initial accumulator. -/
theorem foldl_min_le_init (l : List ℤ) (a : ℤ) : l.foldl min a ≤ a := by
  induction l generalizing a with
  | nil => exact le_refl a
  | cons x xs ih => exact le_trans (ih (min a x)) (min_le_left a x)

/-- Folding `min` over a list never exceeds any of its members. -/
theorem foldl_min_le_mem (l : List ℤ) (a b : ℤ) (hb : b ∈ l) : l.foldl min a ≤ b := by
  induction l generalizing a with
  | nil => cases hb
  | cons x xs ih =>
    rcases List.mem_cons.mp hb with rfl | h
    · exact le_trans (foldl_min_le_init xs (min a b)) (min_le_right a b)
    · exact ih (min a x) h

/-- The fold of `min` is the initial accumulator or one of the members. -/
theorem foldl_min_mem (l : List ℤ) (a : ℤ) : l.foldl min a = a ∨ l.foldl min a ∈ l := by
  induction l generalizing a with
  | nil => exact Or.inl rfl
  | cons x xs ih =>
    rcases ih (min a x) with h | h
    · rcases min_choice a x with he | he
      · exact Or.inl (by rw [List.foldl_cons, h, he])
      · exact Or.inr (List.mem_cons.mpr (Or.inl (by rw [List.foldl_cons, h, he])))
    · exact Or.inr (List.mem_cons.mpr (Or.inr h))

/-- Folding `max` over a list is at least the initial accumulator. -/
theorem init_le_foldl_max (l : List ℤ) (a : ℤ) : a ≤ l.foldl max a := by
  induction l generalizing a with
  | nil => exact le_refl a
  | cons x xs ih => exact le_trans (le_max_left a x) (ih (max a x))

/-- Folding `max` over a list is at least any of its members. -/
theorem mem_le_foldl_max (l : List ℤ) (a b : ℤ) (hb : b ∈ l) : b ≤ l.foldl max a := by
  induction l generalizing a with
  | nil => cases hb
  | cons x xs ih =>
    rcases List.mem_cons.mp hb with rfl | h
    · exact le_trans (le_max_right a b) (init_le_foldl_max xs (max a b))
    · exact ih (max a x) h

/-- The fold of `max` is the initial accumulator or one of the members. -/
theorem foldl_max_mem (l : List ℤ) (a : ℤ) : l.foldl max a = a ∨ l.foldl max a ∈ l := by
  induction l generalizing a with
  | nil => exact Or.inl rfl
  | cons x xs ih =>
    rcases ih (max a x) with h | h
    · rcases max_choice a x with he | he
      · exact Or.inl (by rw [List.foldl_cons, h, he])
      · exact Or.inr (List.mem_cons.mpr (Or.inl (by rw [List.foldl_cons, h, he])))
    · exact Or.inr (List.mem_cons.mpr (Or.inr h))

/-- The first resampling bin is at or before every observed month. -/
theorem Aggregator.lo_le_month (obs : List Obs) (o : Obs) (ho : o ∈ obs) :
    Aggregator.lo obs ≤ o.ds.month := by
  cases obs with
  | nil => cases ho
  | cons x rest =>
    rcases List.mem_cons.mp ho with rfl | h
    · exact foldl_min_le_init _ _
    · exact foldl_min_le_mem _ _ _ (List.mem_map.mpr ⟨o, h, rfl⟩)

/-- The last resampling bin is at or after every observed month. -/
theorem Aggregator.month_le_hi (obs : List Obs) (o : Obs) (ho : o ∈ obs) :
    o.ds.month ≤ Aggregator.hi obs := by
  cases obs with
  | nil => cases ho
  | cons x rest =>
    rcases List.mem_cons.mp ho with rfl | h
    · exact init_le_foldl_max _ _
    · exact mem_le_foldl_max _ _ _ (List.mem_map.mpr ⟨o, h, rfl⟩)

/-- The first resampling bin is an observed month. -/
theorem Aggregator.lo_mem (obs : List Obs) (hne : obs ≠ []) :
    ∃ o, o ∈ obs ∧ Aggregator.lo obs = o.ds.month := by
  cases obs with
  | nil => exact absurd rfl hne
  | cons x rest =>
    rcases foldl_min_mem (rest.map (fun x => x.ds.month)) x.ds.month with h | h
    · exact ⟨x, List.mem_cons_self x rest, h⟩
    · rcases List.mem_map.mp h with ⟨o, ho, he⟩
      exact ⟨o, List.mem_cons.mpr (Or.inr ho), he.symm⟩

/-- The last resampling bin is an observed month. -/
theorem Aggregator.hi_mem (obs : List Obs) (hne : obs ≠ []) :
    ∃ o, o ∈ obs ∧ Aggregator.hi obs = o.ds.month := by
  cases obs with
  | nil => exact absurd rfl hne
  | cons x rest =>
    rcases foldl_max_mem (rest.map (fun x => x.ds.month)) x.ds.month with h | h
    · exact ⟨x, List.mem_cons_self x rest, h⟩
    · rcases List.mem_map.mp h with ⟨o, ho, he⟩
      exact ⟨o, List.mem_cons.mpr (Or.inr ho), he.symm⟩

/-- The resampling range is well ordered for a non-empty observation list. -/
theorem Aggregator.lo_le_hi (obs : List Obs) (hne : obs ≠ []) :
    Aggregator.lo obs ≤ Aggregator.hi obs := by
  cases obs with
  | nil => exact absurd rfl hne
  | cons x rest =>
    exact le_trans (Aggregator.lo_le_month _ x (List.mem_cons_self x rest))
      (Aggregator.month_le_hi _ x (List.mem_cons_self x rest))

/-- Unfolding of the aggregation on a non-empty observation list. -/
theorem Aggregator.aggregate_eq (obs : List Obs) (hne : obs ≠ []) :
    Aggregator.aggregate obs =
      (List.range (Aggregator.span obs)).map (fun (i : ℕ) =>
        { month := Aggregator.lo obs + i
          value := Aggregator.monthTotal obs (Aggregator.lo obs + i) }) := by
  cases obs with
  | nil => exact absurd rfl hne
  | cons x rest => rfl

/-- A non-empty observation list spans at least one monthly bin. -/
theorem Aggregator.span_pos (obs : List Obs) (hne : obs ≠ []) :
    1 ≤ Aggregator.span obs := by
  have h := Aggregator.lo_le_hi obs hne
  unfold Aggregator.span
  omega

/-- Length of the aggregated series is the number of monthly bins. -/
theorem Aggregator.length_aggregate (obs : List Obs) (hne : obs ≠ []) :
    (Aggregator.aggregate obs).length = Aggregator.span obs := by
  rw [Aggregator.aggregate_eq obs hne]
  simp

/-- Entry `i` of the aggregated series: the `i`-th month of the range,
valued by the sum of the observations of that month. -/
theorem Aggregator.aggregate_get (obs : List Obs) (i : ℕ)
    (hi : i < (Aggregator.aggregate obs).length) :
    (Aggregator.aggregate obs).get ⟨i, hi⟩ =
      { month := Aggregator.lo obs + i
        value := Aggregator.monthTotal obs (Aggregator.lo obs + i) } := by
  cases obs with
  | nil => simp [Aggregator.aggregate] at hi
  | cons x rest =>
    rw [List.get_eq_getElem]
    simp [Aggregator.aggregate]

/-- The fitted residual scale is never negative: it is either a
non-negative standard deviation or the positive floor. -/
theorem UncertaintyEstimator.fit_nonneg (s : List SeriesPoint)
    (tm : TrendModel) (sm : SeasonalModel) :
    0 ≤ UncertaintyEstimator.fit s tm sm := by
  unfold UncertaintyEstimator.fit
  split
  · unfold residualFloor
    norm_num
  · exact Real.sqrt_nonneg _

/-- Both interval widths are non-negative for a non-negative scale. -/
theorem UncertaintyEstimator.interval_nonneg (scale : ℝ) (d : ℕ)
    (hs : 0 ≤ scale) :
    0 ≤ (UncertaintyEstimator.interval scale d).1 ∧
    0 ≤ (UncertaintyEstimator.interval scale d).2 :=
  ⟨mul_nonneg hs (Real.sqrt_nonneg _), mul_nonneg hs (Real.sqrt_nonneg _)⟩

/-- A successful fit requires at least two points and returns exactly
the assembled model. -/
theorem Forecaster.fit_eq_ok (s : List SeriesPoint) (m : ForecastModel)
    (hm : Forecaster.fit s = Except.ok m) :
    2 ≤ s.length ∧ m = Forecaster.mkModel s := by
  unfold Forecaster.fit at hm
  split at hm
  · exact absurd hm (by simp)
  · next hlen =>
    refine ⟨by omega, ?_⟩
    injection hm with h
    exact h.symm

/-- The residual scale of any successfully fitted model is non-negative. -/
theorem Forecaster.fit_scale_nonneg (s : List SeriesPoint) (m : ForecastModel)
    (hm : Forecaster.fit s = Except.ok m) : 0 ≤ m.residualScale := by
  rcases Forecaster.fit_eq_ok s m hm with ⟨-, rfl⟩
  exact UncertaintyEstimator.fit_nonneg s _ _

/-- The forecast table has one row per historical period plus one per
future month of the horizon. -/
theorem ForecastModel.predictRows_length (m : ForecastModel) (h : ℕ) :
    (m.predictRows h).length = m.historyPeriods.length + h := by
  simp [ForecastModel.predictRows]

/-- Every row of the forecast table is a `row` at the months-ahead
distance determined by its position. -/
theorem ForecastModel.predictRows_get (m : ForecastModel) (h i : ℕ)
    (hi : i < (m.predictRows h).length) :
    ∃ p : ℤ, (m.predictRows h).get ⟨i, hi⟩ =
      m.row p (monthsAhead m.historyPeriods.length i) := by
  have hlen : (m.predictRows h).length = m.historyPeriods.length + h :=
    m.predictRows_length h
  rw [List.get_eq_getElem]
  by_cases hN : i < m.historyPeriods.length
  · refine ⟨m.historyPeriods.get ⟨i, hN⟩, ?_⟩
    show (_ ++ _)[i] = _
    rw [List.getElem_append_left (by simpa using hN)]
    rw [List.getElem_map]
    rw [monthsAhead, if_pos hN, List.get_eq_getElem]
  · refine ⟨m.lastPeriod + ((i - m.historyPeriods.length : ℕ) : ℤ) + 1, ?_⟩
    show (_ ++ _)[i] = _
    rw [List.getElem_append_right (by simpa using hN)]
    simp only [List.length_map]
    rw [List.getElem_map, List.getElem_range]
    rw [monthsAhead, if_neg hN]

/-- The months-ahead distance is monotone in the row position. -/
theorem monthsAhead_mono (n i j : ℕ) (hij : i ≤ j) :
    monthsAhead n i ≤ monthsAhead n j := by
  unfold monthsAhead
  split <;> split <;> omega

/-- Width of a forecast row: twice the interval half-width at its
months-ahead distance. -/
theorem ForecastModel.row_width (m : ForecastModel) (p : ℤ) (d : ℕ) :
    (m.row p d).upper - (m.row p d).lower =
      2 * (m.residualScale * Real.sqrt (1 + growthConstant * d)) := by
  show m.trend.evaluate p + m.seasonal.evaluate p +
      (UncertaintyEstimator.interval m.residualScale d).2 -
      (m.trend.evaluate p + m.seasonal.evaluate p -
        (UncertaintyEstimator.interval m.residualScale d).1) = _
  unfold UncertaintyEstimator.interval
  ring

/-- Interval half-widths grow monotonically with the distance. -/
theorem halfWidth_mono (scale : ℝ) (hs : 0 ≤ scale) (d e : ℕ) (hde : d ≤ e) :
    scale * Real.sqrt (1 + growthConstant * d) ≤
      scale * Real.sqrt (1 + growthConstant * e) := by
  refine mul_le_mul_of_nonneg_left (Real.sqrt_le_sqrt ?_) hs
  have hk : (0 : ℝ) ≤ growthConstant := by
    unfold growthConstant
    norm_num
  have : (d : ℝ) ≤ (e : ℝ) := Nat.cast_le.mpr hde
  nlinarith

/-- The fitted model records one historical period per aggregated point. -/
theorem Forecaster.historyPeriods_length_aggregate (obs : List Obs) (hne : obs ≠ []) :
    (Forecaster.mkModel (Aggregator.aggregate obs)).historyPeriods.length =
      Aggregator.span obs := by
  show ((Aggregator.aggregate obs).map (fun p => p.month)).length = _
  rw [List.length_map, Aggregator.length_aggregate obs hne]

/-- The `i`-th historical period of the fitted model is the `i`-th month
of the resampling range. -/
theorem Forecaster.historyPeriods_get_aggregate (obs : List Obs) (i : ℕ)
    (hi : i < (Forecaster.mkModel (Aggregator.aggregate obs)).historyPeriods.length) :
    (Forecaster.mkModel (Aggregator.aggregate obs)).historyPeriods.get ⟨i, hi⟩ =
      Aggregator.lo obs + i := by
  have hi' : i < (Aggregator.aggregate obs).length := by
    simpa [Forecaster.mkModel] using hi
  show ((Aggregator.aggregate obs).map (fun p => p.month)).get _ = _
  rw [List.get_eq_getElem, List.getElem_map]
  have := Aggregator.aggregate_get obs i hi'
  rw [List.get_eq_getElem] at this
  rw [this]

/-- The cached last period of the fitted model is the last month of the
resampling range. -/
theorem Forecaster.lastPeriod_aggregate (obs : List Obs) (hne : obs ≠ []) :
    (Forecaster.mkModel (Aggregator.aggregate obs)).lastPeriod =
      Aggregator.lo obs + ((Aggregator.span obs - 1 : ℕ) : ℤ) := by
  show ((Aggregator.aggregate obs).map (fun p => p.month)).getLastD 0 = _
  rw [Aggregator.aggregate_eq obs hne, List.map_map]
  obtain ⟨k, hk⟩ : ∃ k, Aggregator.span obs = k + 1 :=
    ⟨Aggregator.span obs - 1, by have := Aggregator.span_pos obs hne; omega⟩
  rw [hk, List.range_succ, List.map_append]
  simp [List.getLastD_concat]

/-- Period of the `i`-th row of the forecast over an aggregated series:
the months of the table continue the resampling range one calendar month
at a time, across the history/future boundary. -/
theorem Forecaster.predict_aggregate_period (obs : List Obs) (hne : obs ≠ [])
    (h i : ℕ)
    (hi : i < ((Forecaster.mkModel (Aggregator.aggregate obs)).predictRows h).length) :
    (((Forecaster.mkModel (Aggregator.aggregate obs)).predictRows h).get ⟨i, hi⟩).period =
      Aggregator.lo obs + i := by
  have hN := Forecaster.historyPeriods_length_aggregate obs hne
  rw [List.get_eq_getElem]
  unfold ForecastModel.predictRows
  by_cases hlt : i < (Forecaster.mkModel (Aggregator.aggregate obs)).historyPeriods.length
  · rw [List.getElem_append_left (by simpa using hlt)]
    rw [List.getElem_map]
    have hg := Forecaster.historyPeriods_get_aggregate obs i hlt
    rw [List.get_eq_getElem] at hg
    show (Forecaster.mkModel (Aggregator.aggregate obs)).historyPeriods[i] = _
    rw [hg]
  · rw [List.getElem_append_right (by simpa using hlt)]
    simp only [List.length_map]
    rw [List.getElem_map, List.getElem_range]
    show (Forecaster.mkModel (Aggregator.aggregate obs)).lastPeriod +
      ((i - (Forecaster.mkModel (Aggregator.aggregate obs)).historyPeriods.length : ℕ) : ℤ) + 1 = _
    rw [Forecaster.lastPeriod_aggregate obs hne, hN]
    have hsp := Aggregator.span_pos obs hne
    have hge : Aggregator.span obs ≤ i := by omega
    omega

/-- Claim C4: fitting fails with InsufficientDataError whenever the
aggregated input contains fewer than 2 distinct months; in particular a
single observed month makes the fit fail. -/
theorem fit_insufficient_data (obs : List Obs)
    (hd : ((obs.map (fun o => o.ds.month)).dedup).length < 2) :
    Forecaster.fit (Aggregator.aggregate obs) =
      Except.error ForecastError.insufficientData := by
  have hlen : (Aggregator.aggregate obs).length < 2 := by
    rcases eq_or_ne obs [] with rfl | hne
    · simp [Aggregator.aggregate]
    · rcases Aggregator.lo_mem obs hne with ⟨o1, ho1, he1⟩
      rcases Aggregator.hi_mem obs hne with ⟨o2, ho2, he2⟩
      have hmem1 : o1.ds.month ∈ (obs.map (fun o => o.ds.month)).dedup :=
        List.mem_dedup.mpr (List.mem_map.mpr ⟨o1, ho1, rfl⟩)
      have hmem2 : o2.ds.month ∈ (obs.map (fun o => o.ds.month)).dedup :=
        List.mem_dedup.mpr (List.mem_map.mpr ⟨o2, ho2, rfl⟩)
      have heq : o1.ds.month = o2.ds.month := by
        rcases hdl : (obs.map (fun o => o.ds.month)).dedup with - | ⟨c, cs⟩
        · rw [hdl] at hmem1
          cases hmem1
        · rw [hdl] at hd hmem1 hmem2
          have hcs : cs = [] := by
            simp only [List.length_cons] at hd
            exact List.eq_nil_of_length_eq_zero (by omega)
          subst hcs
          rw [List.mem_singleton] at hmem1 hmem2
          rw [hmem1, hmem2]
      have hlohi : Aggregator.hi obs = Aggregator.lo obs := by
        rw [he1, he2, heq]
      rw [Aggregator.length_aggregate obs hne]
      unfold Aggregator.span
      omega
  unfold Forecaster.fit
  rw [if_pos hlen]

/-- Witness for C4: one observed month, fit rejects the series. -/
theorem fit_insufficient_data_witness :
    ((exObs1.map (fun o => o.ds.month)).dedup).length < 2 ∧
    Forecaster.fit (Aggregator.aggregate exObs1) =
      Except.error ForecastError.insufficientData :=
  ⟨by decide, fit_insufficient_data exObs1 (by decide)⟩

/-- Claim C5: predict fails with InvalidHorizonError whenever the
horizon is below 1 or above the configured maximum of 24 months. -/
theorem predict_invalid_horizon (m : ForecastModel) (h : ℕ)
    (hbad : h < 1 ∨ maxHorizon < h) :
    Forecaster.predict m h = Except.error ForecastError.invalidHorizon := by
  unfold Forecaster.predict
  rcases hbad with hb | hb
  · rw [if_pos hb]
  · rw [if_neg (by omega), if_pos hb]

/-- Witness for C5: horizon 0 is rejected. -/
theorem predict_invalid_horizon_witness :
    (0 < 1 ∨ maxHorizon < 0) ∧
    Forecaster.predict exModel0 0 = Except.error ForecastError.invalidHorizon :=
  ⟨Or.inl (by decide), predict_invalid_horizon exModel0 0 (Or.inl (by decide))⟩

/-- Claim C8: for every non-empty series, the total equals the sum of
the values and the average equals the total divided by the length,
exactly. -/
theorem kpi_total_average (s : List SeriesPoint) (_hne : s ≠ []) :
    KPISummarizer.total s = (s.map (fun p => p.value)).sum ∧
    KPISummarizer.average s = KPISummarizer.total s / (s.length : ℚ) :=
  ⟨rfl, rfl⟩

/-- Witness for C8 on a concrete two-point series. -/
theorem kpi_total_average_witness :
    Aggregator.aggregate exObsC6 ≠ [] ∧
    (KPISummarizer.total (Aggregator.aggregate exObsC6) =
        ((Aggregator.aggregate exObsC6).map (fun p => p.value)).sum ∧
      KPISummarizer.average (Aggregator.aggregate exObsC6) =
        KPISummarizer.total (Aggregator.aggregate exObsC6) /
          ((Aggregator.aggregate exObsC6).length : ℚ)) :=
  ⟨by decide, kpi_total_average (Aggregator.aggregate exObsC6) (by decide)⟩

/-- Claim C10: the forecast of one coffee type does not depend on the
rows of other ingredients: two sales tables agreeing on the rows of the
selected ingredient (in order) produce identical forecast and
aggregated-series outputs. -/
theorem run_forecast_noninterference (d1 d2 : List SalesRow) (coffee : String)
    (h : ℕ)
    (hagree : filterIngredient d1 coffee = filterIngredient d2 coffee) :
    run_forecast d1 coffee h = run_forecast d2 coffee h := by
  unfold run_forecast
  rw [hagree]

/-- Witness for C10: dropping the Robusta rows leaves the Colombia
forecast unchanged. -/
theorem run_forecast_noninterference_witness :
    filterIngredient exSales1 ("Colombia") = filterIngredient exSales2 ("Colombia") ∧
    run_forecast exSales1 ("Colombia") 12 = run_forecast exSales2 ("Colombia") 12 :=
  ⟨rfl, run_forecast_noninterference exSales1 exSales2 ("Colombia") 12 rfl⟩

/-- Claim C2: for every fitted model, every row of the forecast table,
historical and future alike, has interval bounds bracketing the point
estimate. -/
theorem forecast_rows_bracket (s : List SeriesPoint) (m : ForecastModel)
    (hm : Forecaster.fit s = Except.ok m) (h : ℕ) (r : ForecastRow)
    (hr : r ∈ m.predictRows h) :
    r.lower ≤ r.point ∧ r.point ≤ r.upper := by
  have hσ : 0 ≤ m.residualScale := Forecaster.fit_scale_nonneg s m hm
  have hform : ∃ p d, r = m.row p d := by
    unfold ForecastModel.predictRows at hr
    rcases List.mem_append.mp hr with hl | hl
    · rcases List.mem_map.mp hl with ⟨p, hp, he⟩
      exact ⟨p, 0, he.symm⟩
    · rcases List.mem_map.mp hl with ⟨i, hi, he⟩
      exact ⟨_, _, he.symm⟩
  rcases hform with ⟨p, d, rfl⟩
  have hw := UncertaintyEstimator.interval_nonneg m.residualScale d hσ
  constructor
  · show m.trend.evaluate p + m.seasonal.evaluate p -
      (UncertaintyEstimator.interval m.residualScale d).1 ≤
      m.trend.evaluate p + m.seasonal.evaluate p
    linarith [hw.1]
  · show m.trend.evaluate p + m.seasonal.evaluate p ≤
      m.trend.evaluate p + m.seasonal.evaluate p +
        (UncertaintyEstimator.interval m.residualScale d).2
    linarith [hw.2]

/-- Witness for C2: the first historical row of a concrete fitted
forecast brackets its point estimate. -/
theorem forecast_rows_bracket_witness :
    Forecaster.fit (Aggregator.aggregate exObs2) = Except.ok exModel ∧
    ((exModel.row 0 0).lower ≤ (exModel.row 0 0).point ∧
      (exModel.row 0 0).point ≤ (exModel.row 0 0).upper) :=
  ⟨rfl, forecast_rows_bracket (Aggregator.aggregate exObs2) exModel rfl 1
    (exModel.row 0 0)
    (List.mem_append_left _ (List.mem_map.mpr ⟨0, by decide, rfl⟩))⟩

/-- Claim C3: interval widths of the forecast table are non-decreasing
along the table (that is, as a function of months ahead of the last
observed period), and each width is twice the half-width
`residual_scale * sqrt(1 + k * distance)` for the fixed constant k > 0. -/
theorem interval_width_monotone_sqrt (s : List SeriesPoint) (m : ForecastModel)
    (hm : Forecaster.fit s = Except.ok m) (h i j : ℕ)
    (hi : i < (m.predictRows h).length) (hj : j < (m.predictRows h).length)
    (hij : i ≤ j) :
    ((m.predictRows h).get ⟨i, hi⟩).upper - ((m.predictRows h).get ⟨i, hi⟩).lower ≤
      ((m.predictRows h).get ⟨j, hj⟩).upper - ((m.predictRows h).get ⟨j, hj⟩).lower ∧
    ((m.predictRows h).get ⟨j, hj⟩).upper - ((m.predictRows h).get ⟨j, hj⟩).lower =
      2 * (m.residualScale *
        Real.sqrt (1 + growthConstant * (monthsAhead m.historyPeriods.length j : ℝ))) ∧
    0 < growthConstant := by
  have hσ : 0 ≤ m.residualScale := Forecaster.fit_scale_nonneg s m hm
  rcases m.predictRows_get h i hi with ⟨p, hp⟩
  rcases m.predictRows_get h j hj with ⟨q, hq⟩
  rw [hp, hq, m.row_width, m.row_width]
  refine ⟨?_, rfl, by unfold growthConstant; norm_num⟩
  have hmono := halfWidth_mono m.residualScale hσ _ _
    (monthsAhead_mono m.historyPeriods.length i j hij)
  linarith

/-- Witness for C3: in a concrete fitted forecast, the width of the
first historical row is at most the width of the last future row. -/
theorem interval_width_monotone_sqrt_witness :
    Forecaster.fit (Aggregator.aggregate exObs2) = Except.ok exModel ∧
    ((exModel.predictRows 1).get ⟨0, by decide⟩).upper -
        ((exModel.predictRows 1).get ⟨0, by decide⟩).lower ≤
      ((exModel.predictRows 1).get ⟨2, by decide⟩).upper -
        ((exModel.predictRows 1).get ⟨2, by decide⟩).lower :=
  ⟨rfl, (interval_width_monotone_sqrt (Aggregator.aggregate exObs2) exModel rfl 1 0 2
    (by decide) (by decide) (by decide)).1⟩

/-- Claim C9: the next-period KPI returns the point value of the row one
month after the last observed period, and the "unavailable" sentinel
(`none`), not an exception, when no such row exists. -/
theorem next_period_forecast_lookup (rows : List ForecastRow) (lastPeriod : ℤ) :
    ((∀ r, r ∈ rows → r.period ≠ lastPeriod + 1) →
      KPISummarizer.nextPeriodForecast rows lastPeriod = none) ∧
    (∀ r, r ∈ rows → r.period = lastPeriod + 1 →
      (∀ s, s ∈ rows → s.period = lastPeriod + 1 → s = r) →
      KPISummarizer.nextPeriodForecast rows lastPeriod = some r.point) := by
  constructor
  · intro hnone
    unfold KPISummarizer.nextPeriodForecast
    rw [List.find?_eq_none.mpr (fun x hx => by simpa using hnone x hx)]
    rfl
  · intro r hr hp huniq
    unfold KPISummarizer.nextPeriodForecast
    have hsome : (rows.find? (fun s => decide (s.period = lastPeriod + 1))).isSome := by
      rw [List.find?_isSome]
      exact ⟨r, hr, by simpa using hp⟩
    rcases Option.isSome_iff_exists.mp hsome with ⟨x, hx⟩
    have hxmem := List.mem_of_find?_eq_some hx
    have hxp : x.period = lastPeriod + 1 := by simpa using List.find?_some hx
    rw [hx, huniq x hxmem hxp]
    rfl

/-- Witness for C9: a concrete lookup that hits the next-month row, and
one whose next month is absent and yields the sentinel. -/
theorem next_period_forecast_lookup_witness :
    KPISummarizer.nextPeriodForecast exRows9 4 =
      some ({ period := 5, point := 4, lower := 2, upper := 6 } : ForecastRow).point ∧
    KPISummarizer.nextPeriodForecast exRows9 9 = none :=
  ⟨(next_period_forecast_lookup exRows9 4).2
      { period := 5, point := 4, lower := 2, upper := 6 }
      (List.Mem.tail _ (List.Mem.head _)) rfl
      (by
        intro s hs hsp
        rcases List.mem_cons.mp hs with rfl | hs
        · exact absurd hsp (by decide)
        · exact List.mem_singleton.mp hs),
   (next_period_forecast_lookup exRows9 9).1
      (by
        intro r hr
        rcases List.mem_cons.mp hr with rfl | hr
        · decide
        · rw [List.mem_singleton.mp hr]
          decide)⟩

/-- Claim C6: aggregation groups the observations by calendar month
(every observed month has a bin) and sums, rather than averages, the
values within each month; on the scenario of values 5, 3 in one month
and 7 in the next it yields exactly [(month, 8), (month+1, 7)]. -/
theorem aggregator_groups_and_sums (obs : List Obs) :
    (∀ i (hi : i < (Aggregator.aggregate obs).length),
      ((Aggregator.aggregate obs).get ⟨i, hi⟩).value =
        ((obs.filter (fun o =>
            o.ds.month = ((Aggregator.aggregate obs).get ⟨i, hi⟩).month)).map
          (fun o => o.value)).sum) ∧
    (∀ o, o ∈ obs → ∃ i, ∃ hi : i < (Aggregator.aggregate obs).length,
      ((Aggregator.aggregate obs).get ⟨i, hi⟩).month = o.ds.month) ∧
    Aggregator.aggregate exObsC6 =
      [{ month := 0, value := 8 }, { month := 1, value := 7 }] := by
  refine ⟨?_, ?_, ?_⟩
  · intro i hi
    rw [Aggregator.aggregate_get obs i hi]
    rfl
  · intro o ho
    have hne : obs ≠ [] := List.ne_nil_of_mem ho
    have h1 := Aggregator.lo_le_month obs o ho
    have h2 := Aggregator.month_le_hi obs o ho
    have hb : (o.ds.month - Aggregator.lo obs).toNat < (Aggregator.aggregate obs).length := by
      rw [Aggregator.length_aggregate obs hne]
      unfold Aggregator.span
      omega
    refine ⟨_, hb, ?_⟩
    rw [Aggregator.aggregate_get obs _ hb]
    show Aggregator.lo obs + ((o.ds.month - Aggregator.lo obs).toNat : ℤ) = o.ds.month
    omega
  · rw [Aggregator.aggregate_eq exObsC6 (by decide)]
    rw [show Aggregator.span exObsC6 = 2 from rfl]
    rw [show (2 : ℕ) = 1 + 1 from rfl, List.range_succ, List.range_succ,
      List.range_zero]
    simp only [List.nil_append, List.map_cons, List.map_nil, List.cons_append]
    norm_num [Aggregator.monthTotal, exObsC6, Aggregator.lo]

/-- Witness for C6: the first aggregated bin of the scenario sums the
two observations of its month, and every observation's month is
represented. -/
theorem aggregator_groups_and_sums_witness :
    ((Aggregator.aggregate exObsC6).get ⟨0, by decide⟩).value =
      ((exObsC6.filter (fun o =>
          o.ds.month = ((Aggregator.aggregate exObsC6).get ⟨0, by decide⟩).month)).map
        (fun o => o.value)).sum ∧
    Aggregator.aggregate exObsC6 =
      [{ month := 0, value := 8 }, { month := 1, value := 7 }] :=
  ⟨(aggregator_groups_and_sums exObsC6).1 0 (by decide),
   (aggregator_groups_and_sums exObsC6).2.2⟩

/-- Claim C7: with observations spanning at least two months, the
aggregated series marches one calendar month at a time with no gaps,
and every in-range month with no observations appears as a zero-valued
point rather than being skipped. -/
theorem aggregator_fills_gap_months (obs : List Obs)
    (hspan : ∃ o1 ∈ obs, ∃ o2 ∈ obs, o1.ds.month ≠ o2.ds.month) :
    List.Chain' (fun a b => b.month = a.month + 1) (Aggregator.aggregate obs) ∧
    ∀ m : ℤ, Aggregator.lo obs ≤ m → m ≤ Aggregator.hi obs →
      (∀ o ∈ obs, o.ds.month ≠ m) →
      ({ month := m, value := 0 } : SeriesPoint) ∈ Aggregator.aggregate obs := by
  rcases hspan with ⟨o1, ho1, -⟩
  have hne : obs ≠ [] := List.ne_nil_of_mem ho1
  constructor
  · rw [List.chain'_iff_get]
    intro i hilt
    rw [Aggregator.aggregate_get, Aggregator.aggregate_get]
    show Aggregator.lo obs + ((i + 1 : ℕ) : ℤ) = Aggregator.lo obs + (i : ℤ) + 1
    push_cast
    ring
  · intro m hm1 hm2 hnone
    rw [Aggregator.aggregate_eq obs hne, List.mem_map]
    have hb : (m - Aggregator.lo obs).toNat ∈ List.range (Aggregator.span obs) := by
      rw [List.mem_range]
      unfold Aggregator.span
      omega
    refine ⟨(m - Aggregator.lo obs).toNat, hb, ?_⟩
    have hmonth : Aggregator.lo obs + (((m - Aggregator.lo obs).toNat : ℕ) : ℤ) = m := by
      omega
    show ({ month := Aggregator.lo obs + (((m - Aggregator.lo obs).toNat : ℕ) : ℤ)
            value := Aggregator.monthTotal obs
              (Aggregator.lo obs + (((m - Aggregator.lo obs).toNat : ℕ) : ℤ)) } :
        SeriesPoint) = { month := m, value := 0 }
    rw [hmonth]
    have hval : Aggregator.monthTotal obs m = 0 := by
      unfold Aggregator.monthTotal
      rw [List.filter_eq_nil_iff.mpr (fun o ho => by simpa using hnone o ho)]
      rfl
    rw [hval]

/-- Witness for C7: months 0 and 2 are observed, month 1 is not, and the
aggregated series still contains a zero-valued point for month 1. -/
theorem aggregator_fills_gap_months_witness :
    (∃ o1 ∈ exObsC7, ∃ o2 ∈ exObsC7, o1.ds.month ≠ o2.ds.month) ∧
    ({ month := 1, value := 0 } : SeriesPoint) ∈ Aggregator.aggregate exObsC7 :=
  ⟨by decide,
   (aggregator_fills_gap_months exObsC7 (by decide)).2 1 (by decide) (by decide)
     (by decide)⟩

/-- Claim C1 (amended): for every aggregated series with at least 2
points and every horizon between 1 and the configured maximum of 24,
predicting after fitting returns exactly N + h rows, ordered by strictly
increasing period with uniform one-calendar-month spacing. -/
theorem predict_fit_rows (obs : List Obs) (h : ℕ)
    (hN : 2 ≤ (Aggregator.aggregate obs).length) (h1 : 1 ≤ h)
    (hmax : h ≤ maxHorizon) :
    ∃ m rows, Forecaster.fit (Aggregator.aggregate obs) = Except.ok m ∧
      Forecaster.predict m h = Except.ok rows ∧
      rows.length = (Aggregator.aggregate obs).length + h ∧
      List.Chain' (fun a b => b.period = a.period + 1) rows := by
  have hne : obs ≠ [] := by
    intro he
    rw [he] at hN
    simp [Aggregator.aggregate] at hN
  refine ⟨Forecaster.mkModel (Aggregator.aggregate obs),
    (Forecaster.mkModel (Aggregator.aggregate obs)).predictRows h, ?_, ?_, ?_, ?_⟩
  · unfold Forecaster.fit
    rw [if_neg (by omega)]
  · unfold Forecaster.predict
    rw [if_neg (by omega), if_neg (by omega)]
  · rw [ForecastModel.predictRows_length,
      Forecaster.historyPeriods_length_aggregate obs hne,
      Aggregator.length_aggregate obs hne]
  · have hlen : ((Forecaster.mkModel (Aggregator.aggregate obs)).predictRows h).length =
        Aggregator.span obs + h := by
      rw [ForecastModel.predictRows_length,
        Forecaster.historyPeriods_length_aggregate obs hne]
    rw [List.chain'_iff_get]
    intro i hilt
    have hi1 : i < ((Forecaster.mkModel (Aggregator.aggregate obs)).predictRows h).length := by
      omega
    have hi2 : i + 1 <
        ((Forecaster.mkModel (Aggregator.aggregate obs)).predictRows h).length := by
      omega
    rw [Forecaster.predict_aggregate_period obs hne h i hi1,
      Forecaster.predict_aggregate_period obs hne h (i + 1) hi2]
    push_cast
    ring

/-- Witness for C1: two aggregated points and horizon 1 give a forecast
of three one-month-apart rows. -/
theorem predict_fit_rows_witness :
    2 ≤ (Aggregator.aggregate exObs2).length ∧
    ∃ m rows, Forecaster.fit (Aggregator.aggregate exObs2) = Except.ok m ∧
      Forecaster.predict m 1 = Except.ok rows ∧
      rows.length = (Aggregator.aggregate exObs2).length + 1 ∧
      List.Chain' (fun a b => b.period = a.period + 1) rows :=
  ⟨by decide, predict_fit_rows exObs2 1 (by decide) (by decide) (by decide)⟩

/-- Counterexample to C1 as stated: with the spec's configured maximum
horizon, a fit over two aggregated points followed by predict at horizon
25 returns InvalidHorizonError rather than N + 25 rows. -/
theorem predict_fit_rows_counterexample :
    Forecaster.fit (Aggregator.aggregate exObs2) =
      Except.ok (Forecaster.mkModel (Aggregator.aggregate exObs2)) ∧
    Forecaster.predict (Forecaster.mkModel (Aggregator.aggregate exObs2)) 25 =
      Except.error ForecastError.invalidHorizon :=
  ⟨rfl, rfl⟩
